import Mathlib

/-!
Verification of the relationship-coach simulator backend.

This file gives a shallow embedding of the Python modules
`app/agents/base.py`, `app/agents/matchmaker.py`, `app/agents/evaluator.py`,
`app/intake_live.py` and the orchestration in `app/main.py`, and proves the
behavioural claims about them.

Modelling conventions:
* Python strings are Lean `String`s; the Python primitives used by the code
  (`strip`, `lower`, `splitlines`, substring containment, `find`/`rfind`,
  slicing) are re-implemented below with Python semantics.
* `json.loads` is modelled by the executable parser `json_loads`, and
  `json.dumps` by `dumps` (default separators) and `dumpsIndent` (indent=2).
* The LLM provider is an oracle `chat : Nat → String` indexed by the number
  of chat calls issued so far; every call is modelled as total (no network
  failures).  The prompt strings that a claim talks about (the per-turn user
  prompts of the simulated date) are modelled explicitly; the remaining
  prompt bodies only flow into the oracle argument and are not materialised.
* `time.time ()` is modelled by an integer parameter `ts`.
* Methods that mutate an agent return the updated agent/memory explicitly;
  exceptions (`ValueError`) are modelled with `Except`.
-/

set_option maxRecDepth 4000

namespace RelCoach

/-! ### Python string primitives -/

/-- Python `str.isspace` characters (the whitespace stripped by `str.strip`). -/
def pyIsSpace (c : Char) : Bool :=
  c == ' ' || c == '\t' || c == '\n' || c == '\r' || c == '\x0b' || c == '\x0c' ||
  c == '\x1c' || c == '\x1d' || c == '\x1e' || c == '\x1f' || c == '\x85' ||
  c == '\xa0' || c == '\u1680' || ('\u2000' ≤ c && c ≤ '\u200a') ||
  c == '\u2028' || c == '\u2029' || c == '\u202f' || c == '\u205f' || c == '\u3000'

/-- Python `str.strip()` on a character list. -/
def pyStripList (cs : List Char) : List Char :=
  ((cs.dropWhile pyIsSpace).reverse.dropWhile pyIsSpace).reverse

/-- Python `str.strip()`. -/
def pyStrip (s : String) : String :=
  String.mk (pyStripList s.toList)

/-- Python `str.lower()` (ASCII letters; the texts in this repository are ASCII). -/
def pyLower (s : String) : String :=
  String.mk (s.toList.map Char.toLower)

/-- Python `str.startswith(pre)`. -/
def pyStartsWith (s pre : String) : Bool :=
  pre.toList.isPrefixOf s.toList

/-- Helper for Python `in` on strings: does `hay` contain `needle`? -/
def strContainsAux (needle : List Char) : List Char → Bool
  | [] => needle.isEmpty
  | c :: rest => needle.isPrefixOf (c :: rest) || strContainsAux needle rest

/-- Python `needle in hay` for strings. -/
def strContains (hay needle : String) : Bool :=
  strContainsAux needle.toList hay.toList

/-- Python universal line boundaries other than `\r\n` (handled separately). -/
def isLineBoundary (c : Char) : Bool :=
  c == '\n' || c == '\r' || c == '\x0b' || c == '\x0c' ||
  c == '\x1c' || c == '\x1d' || c == '\x1e' || c == '\x85' ||
  c == '\u2028' || c == '\u2029'

/-- Worker for Python `str.splitlines()`. -/
def pySplitlinesAux (cur : List Char) : List Char → List String
  | [] => if cur.isEmpty then [] else [String.mk cur.reverse]
  | '\r' :: '\n' :: rest => String.mk cur.reverse :: pySplitlinesAux [] rest
  | c :: rest =>
      if isLineBoundary c then String.mk cur.reverse :: pySplitlinesAux [] rest
      else pySplitlinesAux (c :: cur) rest

/-- Python `str.splitlines()`. -/
def pySplitlines (s : String) : List String :=
  pySplitlinesAux [] s.toList

/-- Python `s[:n]` for strings. -/
def pyTake (s : String) (n : Nat) : String :=
  String.mk (s.toList.take n)

/-- Python `str.lstrip(chars)`. -/
def pyLStrip (chars : List Char) (s : String) : String :=
  String.mk (s.toList.dropWhile (fun c => chars.contains c))

/-- Python `s.find(c)` for a single character (`none` models `-1`). -/
def findCharIdx (c : Char) (cs : List Char) : Option Nat :=
  cs.findIdx? (fun d => d == c)

/-- Python `s.rfind(c)` for a single character (`none` models `-1`). -/
def rfindCharIdx (c : Char) (cs : List Char) : Option Nat :=
  match findCharIdx c cs.reverse with
  | none => none
  | some i => some (cs.length - 1 - i)

/-! ### JSON values, `json.loads` and `json.dumps` -/

/-- JSON values as produced by `json.loads` (floats are not needed by any claim
and are rejected by the parser). -/
inductive JVal where
  | null
  | bool (b : Bool)
  | int (n : Int)
  | str (s : String)
  | arr (elems : List JVal)
  | obj (fields : List (String × JVal))
deriving Repr

/-- JSON whitespace skipped by the parser. -/
def jsonWs (c : Char) : Bool :=
  c == ' ' || c == '\t' || c == '\n' || c == '\r'

/-- Hexadecimal digit value. -/
def hexDigit (c : Char) : Option Nat :=
  if '0' ≤ c ∧ c ≤ '9' then some (c.toNat - '0'.toNat)
  else if 'a' ≤ c ∧ c ≤ 'f' then some (c.toNat - 'a'.toNat + 10)
  else if 'A' ≤ c ∧ c ≤ 'F' then some (c.toNat - 'A'.toNat + 10)
  else none

/-- Parse four hex digits. -/
def parseHex4 : List Char → Option (Nat × List Char)
  | a :: b :: c :: d :: rest =>
      match hexDigit a, hexDigit b, hexDigit c, hexDigit d with
      | some x, some y, some z, some w => some (((x * 16 + y) * 16 + z) * 16 + w, rest)
      | _, _, _, _ => none
  | _ => none

/-- Parse the body of a JSON string (after the opening quote). -/
def parseStrBody : Nat → List Char → Option (List Char × List Char)
  | 0, _ => none
  | _ + 1, [] => none
  | _ + 1, '"' :: rest => some ([], rest)
  | fuel + 1, '\\' :: rest =>
      match rest with
      | [] => none
      | e :: rest2 =>
        let esc : Option (Char × List Char) :=
          match e with
          | '"' => some ('"', rest2)
          | '\\' => some ('\\', rest2)
          | '/' => some ('/', rest2)
          | 'b' => some ('\x08', rest2)
          | 'f' => some ('\x0c', rest2)
          | 'n' => some ('\n', rest2)
          | 'r' => some ('\r', rest2)
          | 't' => some ('\t', rest2)
          | 'u' =>
            match parseHex4 rest2 with
            | none => none
            | some (nv, rest3) =>
              if 0xd800 ≤ nv ∧ nv ≤ 0xdbff then
                match rest3 with
                | '\\' :: 'u' :: rest4 =>
                  match parseHex4 rest4 with
                  | some (mv, rest5) =>
                    if 0xdc00 ≤ mv ∧ mv ≤ 0xdfff then
                      some (Char.ofNat (0x10000 + (nv - 0xd800) * 0x400 + (mv - 0xdc00)), rest5)
                    else none
                  | none => none
                | _ => none
              else if 0xdc00 ≤ nv ∧ nv ≤ 0xdfff then none
              else some (Char.ofNat nv, rest3)
          | _ => none
        match esc with
        | none => none
        | some (c, r) =>
          match parseStrBody fuel r with
          | none => none
          | some (s, r2) => some (c :: s, r2)
  | fuel + 1, c :: rest =>
      if c.toNat < 0x20 then none
      else
        match parseStrBody fuel rest with
        | none => none
        | some (s, r) => some (c :: s, r)

/-- Does a float continuation follow (we only model integer JSON numbers)? -/
def floatFollows : List Char → Bool
  | c :: _ => c == '.' || c == 'e' || c == 'E'
  | [] => false

/-- Digits to a natural number. -/
def digitsToNat (ds : List Char) : Nat :=
  ds.foldl (fun a c => a * 10 + (c.toNat - '0'.toNat)) 0

/-- Parse a JSON integer literal. -/
def parseNum (cs : List Char) : Option (JVal × List Char) :=
  let p : Bool × List Char := match cs with
    | '-' :: r => (true, r)
    | _ => (false, cs)
  match p.2 with
  | '0' :: rest =>
      if floatFollows rest then none
      else match rest with
        | d :: _ => if d.isDigit then none else some (JVal.int 0, rest)
        | [] => some (JVal.int 0, rest)
  | c :: _ =>
      if c.isDigit then
        let ds := p.2.takeWhile Char.isDigit
        let rest := p.2.dropWhile Char.isDigit
        if floatFollows rest then none
        else some (JVal.int (if p.1 then -(digitsToNat ds : Int) else (digitsToNat ds : Int)), rest)
      else none
  | [] => none

/-- Python-dict insertion: replace the value at an existing key in place,
otherwise append the pair at the end. -/
def objInsert (fields : List (String × JVal)) (k : String) (v : JVal) :
    List (String × JVal) :=
  if fields.any (fun p => p.1 == k) then
    fields.map (fun p => if p.1 == k then (k, v) else p)
  else fields ++ [(k, v)]

mutual

/-- Parse one JSON value (fuel-indexed recursive-descent parser). -/
def parseVal : Nat → List Char → Option (JVal × List Char)
  | 0, _ => none
  | fuel + 1, cs =>
    let cs := cs.dropWhile jsonWs
    match cs with
    | 'n' :: 'u' :: 'l' :: 'l' :: rest => some (JVal.null, rest)
    | 't' :: 'r' :: 'u' :: 'e' :: rest => some (JVal.bool true, rest)
    | 'f' :: 'a' :: 'l' :: 's' :: 'e' :: rest => some (JVal.bool false, rest)
    | '"' :: rest =>
      (parseStrBody (rest.length + 1) rest).map (fun p => (JVal.str (String.mk p.1), p.2))
    | '[' :: rest =>
      (match rest.dropWhile jsonWs with
       | ']' :: r => some (JVal.arr [], r)
       | _ => parseArrItems fuel rest [])
    | '\x7b' :: rest =>
      (match rest.dropWhile jsonWs with
       | '\x7d' :: r => some (JVal.obj [], r)
       | _ => parseObjItems fuel rest [])
    | _ => parseNum cs

/-- Parse the items of a non-empty JSON array. -/
def parseArrItems : Nat → List Char → List JVal → Option (JVal × List Char)
  | 0, _, _ => none
  | fuel + 1, cs, acc =>
    match parseVal fuel cs with
    | none => none
    | some (v, rest) =>
      match rest.dropWhile jsonWs with
      | ',' :: r => parseArrItems fuel r (acc ++ [v])
      | ']' :: r => some (JVal.arr (acc ++ [v]), r)
      | _ => none

/-- Parse the members of a non-empty JSON object. -/
def parseObjItems : Nat → List Char → List (String × JVal) →
    Option (JVal × List Char)
  | 0, _, _ => none
  | fuel + 1, cs, acc =>
    match cs.dropWhile jsonWs with
    | '"' :: rest =>
      (match parseStrBody (rest.length + 1) rest with
       | none => none
       | some (k, rest2) =>
         match rest2.dropWhile jsonWs with
         | ':' :: rest3 =>
           (match parseVal fuel rest3 with
            | none => none
            | some (v, rest4) =>
              let acc := objInsert acc (String.mk k) v
              match rest4.dropWhile jsonWs with
              | ',' :: r => parseObjItems fuel r acc
              | '\x7d' :: r => some (JVal.obj acc, r)
              | _ => none)
         | _ => none)
    | _ => none

end

/-- Model of Python `json.loads`: parse one value and require only trailing
whitespace after it. -/
def json_loads (s : String) : Option JVal :=
  match parseVal (s.toList.length + 2) s.toList with
  | some (v, rest) => if (rest.dropWhile jsonWs).isEmpty then some v else none
  | none => none

/-- One hexadecimal digit character (lowercase). -/
def hexDigitChar (n : Nat) : Char :=
  if n < 10 then Char.ofNat ('0'.toNat + n) else Char.ofNat ('a'.toNat + n - 10)

/-- Four lowercase hex digits, as used by `ensure_ascii` escapes. -/
def hex4 (n : Nat) : List Char :=
  [hexDigitChar (n / 4096 % 16), hexDigitChar (n / 256 % 16),
   hexDigitChar (n / 16 % 16), hexDigitChar (n % 16)]

/-- Escape one character as Python `json.dumps` (`ensure_ascii=True`) does. -/
def escapeJChar (c : Char) : List Char :=
  if c == '"' then ['\\', '"']
  else if c == '\\' then ['\\', '\\']
  else if c == '\n' then ['\\', 'n']
  else if c == '\t' then ['\\', 't']
  else if c == '\r' then ['\\', 'r']
  else if c == '\x08' then ['\\', 'b']
  else if c == '\x0c' then ['\\', 'f']
  else if c.toNat < 0x20 || 0x7e < c.toNat then
    if c.toNat ≤ 0xffff then '\\' :: 'u' :: hex4 c.toNat
    else
      ('\\' :: 'u' :: hex4 (0xd800 + (c.toNat - 0x10000) / 0x400)) ++
      ('\\' :: 'u' :: hex4 (0xdc00 + (c.toNat - 0x10000) % 0x400))
  else [c]

/-- Serialise a string as a JSON string literal. -/
def dumpsStr (s : String) : String :=
  String.mk ('"' :: s.toList.foldr (fun c acc => escapeJChar c ++ acc) ['"'])

mutual

/-- Python `json.dumps(v)` with the default separators. -/
def dumps : JVal → String
  | JVal.null => "null"
  | JVal.bool true => "true"
  | JVal.bool false => "false"
  | JVal.int n => toString n
  | JVal.str s => dumpsStr s
  | JVal.arr [] => "[]"
  | JVal.arr (x :: xs) => "[" ++ String.intercalate (", ") (dumpsList (x :: xs)) ++ "]"
  | JVal.obj [] => "\x7b\x7d"
  | JVal.obj (f :: fs) =>
      "\x7b" ++ String.intercalate (", ") (dumpsFields (f :: fs)) ++ "\x7d"

/-- Serialise array elements. -/
def dumpsList : List JVal → List String
  | [] => []
  | v :: vs => dumps v :: dumpsList vs

/-- Serialise object members. -/
def dumpsFields : List (String × JVal) → List String
  | [] => []
  | (k, v) :: fs => (dumpsStr k ++ ": " ++ dumps v) :: dumpsFields fs

end

/-- `2 * lvl` spaces of indentation. -/
def pad (lvl : Nat) : String :=
  String.mk (List.replicate (2 * lvl) ' ')

mutual

/-- Python `json.dumps(v, indent=2)` at nesting level `lvl`. -/
def dumpsIndent (lvl : Nat) : JVal → String
  | JVal.null => "null"
  | JVal.bool true => "true"
  | JVal.bool false => "false"
  | JVal.int n => toString n
  | JVal.str s => dumpsStr s
  | JVal.arr [] => "[]"
  | JVal.arr (x :: xs) =>
      "[\n" ++ pad (lvl + 1) ++
      String.intercalate (",\n" ++ pad (lvl + 1)) (dumpsIndentList (lvl + 1) (x :: xs)) ++
      "\n" ++ pad lvl ++ "]"
  | JVal.obj [] => "\x7b\x7d"
  | JVal.obj (f :: fs) =>
      "\x7b\n" ++ pad (lvl + 1) ++
      String.intercalate (",\n" ++ pad (lvl + 1)) (dumpsIndentFields (lvl + 1) (f :: fs)) ++
      "\n" ++ pad lvl ++ "\x7d"

/-- Serialise array elements with indentation. -/
def dumpsIndentList (lvl : Nat) : List JVal → List String
  | [] => []
  | v :: vs => dumpsIndent lvl v :: dumpsIndentList lvl vs

/-- Serialise object members with indentation. -/
def dumpsIndentFields (lvl : Nat) : List (String × JVal) → List String
  | [] => []
  | (k, v) :: fs => (dumpsStr k ++ ": " ++ dumpsIndent lvl v) :: dumpsIndentFields lvl fs

end

/-- Python `dict.setdefault` (restricted to its effect on the mapping; the
value at an existing key wins, a missing key is appended with the default). -/
def setdefault (fields : List (String × JVal)) (k : String) (v : JVal) :
    List (String × JVal) :=
  if fields.any (fun p => p.1 == k) then fields else fields ++ [(k, v)]

/-- Does the modelled dict have the key? -/
def dictHasKey (fields : List (String × JVal)) (k : String) : Bool :=
  fields.any (fun p => p.1 == k)

/-- Value at a key of the modelled dict. -/
def dictGet? (fields : List (String × JVal)) (k : String) : Option JVal :=
  (fields.find? (fun p => p.1 == k)).map (fun p => p.2)

/-! ### User profiles (app/users.py shape) -/

/-- The fields of a demo user record that the agents read. -/
structure UserProfile where
  user_id : String
  display_name : String
  bio : String
  traits : List String
  boundaries : List String
deriving Repr, DecidableEq

/-! ### Memory (app/agents/base.py) -/

/-- Values stored in memory-entry metadata and in the `_metadata` dict. -/
inductive MVal where
  | str (s : String)
  | num (t : Int)
  | profile (p : UserProfile)
deriving Repr, DecidableEq

/-- One memory entry `{"text": ..., "metadata": ...}`. -/
structure MemEntry where
  text : String
  metadata : List (String × MVal)
deriving Repr, DecidableEq

/-- Python-dict insertion for metadata dicts. -/
def mdInsert (d : List (String × MVal)) (k : String) (v : MVal) :
    List (String × MVal) :=
  if d.any (fun p => p.1 == k) then
    d.map (fun p => if p.1 == k then (k, v) else p)
  else d ++ [(k, v)]

/-- The `Memory` object: `_entries` list and `_metadata` dict. -/
structure Memory where
  entries : List MemEntry
  mdata : List (String × MVal)
deriving Repr, DecidableEq

/-- `Memory.__init__`. -/
def Memory.empty : Memory :=
  { entries := [], mdata := [] }

/-- `Memory.write`: append one entry (`metadata or {}`). -/
def Memory.write (m : Memory) (text : String)
    (metadata : Option (List (String × MVal))) : Memory :=
  { m with entries := m.entries ++ [{ text := text, metadata := metadata.getD [] }] }

/-- `Memory.search`: lowercase-substring match, first `k` hits in insertion
order.  The second component is the memory after the call. -/
def Memory.search (m : Memory) (query : String) (k : Nat) :
    List MemEntry × Memory :=
  let q := pyStrip (pyLower query)
  let hits := m.entries.filter (fun e => strContains (pyLower e.text) q)
  (hits.take k, m)

/-- `Memory.search_metadata`: newest-first entries whose `metadata[key] == value`,
stopping after `k` hits. -/
def Memory.search_metadata (m : Memory) (key : String) (value : MVal) (k : Nat) :
    List MemEntry × Memory :=
  (((m.entries.reverse.filter
      (fun e => (e.metadata.find? (fun p => p.1 == key)).map (fun p => p.2) == some value))).take k, m)

/-- `Memory.latest_by_type`. -/
def Memory.latest_by_type (m : Memory) (entry_type : String) :
    Option MemEntry × Memory :=
  let hits := (m.search_metadata ("type") (MVal.str entry_type) 1).1
  (hits.head?, m)

/-- `Memory.all`. -/
def Memory.all (m : Memory) : List MemEntry × Memory :=
  (m.entries, m)

/-- `Memory.set_metadata`. -/
def Memory.set_metadata (m : Memory) (key : String) (value : MVal) : Memory :=
  { m with mdata := mdInsert m.mdata key value }

/-- `Memory.get_metadata`. -/
def Memory.get_metadata (m : Memory) (key : String) (default : MVal) :
    MVal × Memory :=
  (((m.mdata.find? (fun p => p.1 == key)).map (fun p => p.2)).getD default, m)

/-- `Memory.clear`. -/
def Memory.clear (_ : Memory) : Memory :=
  { entries := [], mdata := [] }

/-! ### extract_json (app/agents/matchmaker.py lines 10-29) -/

/-- The first `{` ... last `}` slice used by `extract_json`
(`t[start : end + 1]` when `start != -1 and end != -1 and end > start`). -/
def braceSlice (t : String) : Option String :=
  match findCharIdx '\x7b' t.toList, rfindCharIdx '\x7d' t.toList with
  | some s, some e => if s < e then some (String.mk ((t.toList.drop s).take (e + 1 - s))) else none
  | _, _ => none

/-- `extract_json`: strip, remove a markdown code fence, slice to the first
`{` ... last `}` block when present, then `json.loads`.  `none` models a
raised exception. -/
def extract_json (text : String) : Option JVal :=
  let t := pyStrip text
  let t :=
    if pyStartsWith t ("```") then
      let lines := pySplitlines t
      let lines := if lines.isEmpty then lines else lines.tail
      let lines :=
        match lines.getLast? with
        | some last => if pyStartsWith (pyStrip last) ("```") then lines.dropLast else lines
        | none => lines
      pyStrip (String.intercalate "\n" lines)
    else t
  match braceSlice t with
  | some s => json_loads s
  | none => json_loads t

/-! ### MatchmakerAgent (app/agents/matchmaker.py) -/

/-- A `MatchmakerAgent` with its base-agent fields. -/
structure MatchmakerAgent where
  name : String
  role : String
  memory : Memory
  user_id : String
  user_profile : UserProfile
deriving Repr, DecidableEq

/-- `MatchmakerAgent.__init__`. -/
def mkMatchmakerAgent (user_id : String) (profile : UserProfile) : MatchmakerAgent :=
  { name := "Matchmaker_" ++ user_id,
    role := "Advocate and simulator for user " ++ user_id,
    memory := ((Memory.empty.set_metadata ("user_id") (MVal.str user_id)).set_metadata
      ("profile") (MVal.profile profile)),
    user_id := user_id,
    user_profile := profile }

/-- Tags for the chat calls an operation issues, in order. -/
inductive CallTag where
  | intakeSummary
  | scene
  | testMoment
  | dialogue (turn : Nat)
  | evaluatorNotes
  | deltaInsight
  | reflection (user_id : String)
  | score
  | pipelineReport
deriving Repr, DecidableEq

/-- Result of `run_intake_summary`. -/
structure IntakeOut where
  summary : List (String × JVal)
  agent : MatchmakerAgent
  nextCall : Nat
  trace : List CallTag

/-- `MatchmakerAgent.run_intake_summary` (matchmaker.py lines 78-170): one chat
call, JSON parse with `setdefault` normalisation or the fallback summary, then
one memory write.  `extra_context` only feeds the prompt, which is not
materialised (the oracle is indexed by call count). -/
def run_intake_summary (chat : Nat → String) (n : Nat) (a : MatchmakerAgent)
    (extra_context : Option String) (ts : Int) : IntakeOut :=
  let response_text := chat n
  let summary :=
    match extract_json response_text with
    | some (JVal.obj fields) =>
        setdefault (setdefault (setdefault fields ("preferences") (JVal.arr []))
          ("dealbreakers") (JVal.arr [])) ("dating_thesis") (JVal.str "")
    | _ =>
        [("preferences", JVal.arr [JVal.str ("Unable to parse preferences")]),
         ("dealbreakers", JVal.arr [JVal.str ("Unable to parse dealbreakers")]),
         ("dating_thesis", JVal.str (pyTake (pyStrip response_text) 240))]
  let mem := a.memory.write
    ("Intake summary for " ++ a.user_profile.display_name ++ ": " ++ dumps (JVal.obj summary))
    (some [("type", MVal.str ("intake_summary")),
           ("user_id", MVal.str a.user_id),
           ("timestamp", MVal.num ts)])
  { summary := summary, agent := { a with memory := mem }, nextCall := n + 1,
    trace := [CallTag.intakeSummary] }

/-! ### NeutralEvaluatorAgent (app/agents/evaluator.py) -/

/-- The fixed fallback intake summary of `_extract_intake_summary`. -/
def noIntakeJ : JVal :=
  JVal.obj
    [("preferences", JVal.arr [JVal.str ("No intake summary available")]),
     ("dealbreakers", JVal.arr [JVal.str ("No intake summary available")]),
     ("dating_thesis", JVal.str ("No intake summary available"))]

/-- `NeutralEvaluatorAgent._extract_intake_summary` (evaluator.py lines 652-681):
search the agent memory for `"Intake summary"`, take the last of the (at most 5)
hits, and parse the first `{` ... last `}` slice of its text; any failure gives
the fixed fallback.  `none` models a missing agent (or one without a memory). -/
def extract_intake_summary (agent : Option MatchmakerAgent) : JVal :=
  match agent with
  | none => noIntakeJ
  | some a =>
    let results := (a.memory.search ("Intake summary") 5).1
    match results.getLast? with
    | none => noIntakeJ
    | some entry =>
      match braceSlice entry.text with
      | some s => (json_loads s).getD noIntakeJ
      | none => noIntakeJ

/-- The fixed failure dict of `score_date_exchange`. -/
def failScore : List (String × JVal) :=
  [("score_a", JVal.int 5), ("score_b", JVal.int 5), ("compatibility", JVal.int 50),
   ("reasons", JVal.arr [JVal.str ("Scoring failed - unable to parse LLM response")]),
   ("quote", JVal.str "")]

/-- Result of `score_date_exchange`. -/
structure ScoreOut where
  score : List (String × JVal)
  nextCall : Nat
  trace : List CallTag

/-- `NeutralEvaluatorAgent.score_date_exchange` (evaluator.py lines 114-186):
one chat call; parse with `extract_json`, require a dict, `setdefault` the five
keys; any exception or non-dict yields the fixed failure dict. -/
def score_date_exchange (chat : Nat → String) (n : Nat) : ScoreOut :=
  let response := chat n
  let score :=
    match extract_json response with
    | some (JVal.obj fields) =>
        setdefault (setdefault (setdefault (setdefault (setdefault fields
          ("score_a") (JVal.int 5))
          ("score_b") (JVal.int 5))
          ("compatibility") (JVal.int 50))
          ("reasons") (JVal.arr [JVal.str ("Unable to parse reasons")]))
          ("quote") (JVal.str "")
    | _ => failScore
  { score := score, nextCall := n + 1, trace := [CallTag.score] }

/-- One transcript turn `{"speaker", "name", "text"}`. -/
structure Turn where
  speaker : String
  name : String
  text : String
deriving Repr, DecidableEq

/-- Normalisation of the test moment: strip, then wrap in brackets unless it
already starts with `[`. -/
def testMomentNormalize (s : String) : String :=
  let t := pyStrip s
  if pyStartsWith t ("[") then t else "[" ++ t ++ "]"

/-- The user prompt sent on dialogue turn `turn` (evaluator.py lines 264-268). -/
def dialogueUserPrompt (test_moment : String) (turn : Nat) : String :=
  if turn == 2 then test_moment ++ "\nRespond naturally to what just happened."
  else "Continue the conversation naturally."

/-- The 6-turn conversation loop (evaluator.py lines 235-282): turn `t` issues
chat call `n + t` with the prompt `dialogueUserPrompt`; even turns speak as
user A, odd turns as user B; each reply is stripped. -/
def runTurns (chat : Nat → String) (n : Nat) (ua ub : UserProfile)
    (test_moment : String) : List Turn :=
  (List.range 6).map (fun turn =>
    let _user_prompt := dialogueUserPrompt test_moment turn
    { speaker := if turn % 2 == 0 then "A" else "B",
      name := if turn % 2 == 0 then ua.display_name else ub.display_name,
      text := pyStrip (chat (n + turn)) })

/-- `"\n".join(f"{t['name']}: {t['text']}" for t in transcript)`. -/
def transcriptText (ts : List Turn) : String :=
  String.intercalate "\n" (ts.map (fun t => t.name ++ ": " ++ t.text))

/-- Post-processing of the evaluator-notes response (evaluator.py lines 306-310):
split on newlines, drop blank and `#` lines, strip bullets, keep 3. -/
def parseNotes (notes_response : String) : List String :=
  ((((pyStrip notes_response).splitOn "\n").filter
      (fun line => !(pyStrip line).isEmpty && !pyStartsWith (pyStrip line) ("#"))).map
      (fun line => pyStrip (pyLStrip ['•', '-', '*'] (pyStrip line)))).take 3

/-- Result of `_write_matchmaker_reflection`. -/
structure ReflOut where
  reflection : String
  agent : Option MatchmakerAgent
  nextCall : Nat
  trace : List CallTag

/-- `NeutralEvaluatorAgent._write_matchmaker_reflection` (evaluator.py lines
581-646): with no agent, return `""` without any chat call; otherwise one chat
call, strip, write the reflection into the agent memory. -/
def write_matchmaker_reflection (chat : Nat → String) (n : Nat)
    (agent : Option MatchmakerAgent) (other : UserProfile) (ts : Int) : ReflOut :=
  match agent with
  | none => { reflection := "", agent := none, nextCall := n, trace := [] }
  | some a =>
    let reflection := pyStrip (chat n)
    let mem := a.memory.write
      ("Matchmaker reflection after date with " ++ other.display_name ++ ":\n" ++ reflection)
      (some [("type", MVal.str ("matchmaker_reflection")),
             ("partner_user_id", MVal.str other.user_id),
             ("timestamp", MVal.num ts)])
    { reflection := reflection, agent := some { a with memory := mem },
      nextCall := n + 1, trace := [CallTag.reflection a.user_id] }

/-- Python-dict insertion for the reflections dict. -/
def strDictInsert (d : List (String × String)) (k v : String) :
    List (String × String) :=
  if d.any (fun p => p.1 == k) then
    d.map (fun p => if p.1 == k then (k, v) else p)
  else d ++ [(k, v)]

/-- The aggregated result dict of `run_date_exchange`. -/
structure DateOut where
  scene : String
  transcript : List Turn
  evaluator_notes : List String
  delta_insight : String
  reflections : List (String × String)
  score : List (String × JVal)

/-- A `run_date_exchange` run: its result plus the updated evaluator memory,
updated matchmaker agents, next call index, and the ordered call trace. -/
structure DateRun where
  result : DateOut
  evalMem : Memory
  agent_a : Option MatchmakerAgent
  agent_b : Option MatchmakerAgent
  nextCall : Nat
  trace : List CallTag

/-- `NeutralEvaluatorAgent.run_date_exchange` (evaluator.py lines 188-442):
scene, test moment, 6 dialogue turns, evaluator notes, delta insight (memory
write when non-empty), date-exchange writes into both matchmaker memories and
the evaluator memory, the two matchmaker reflections, and finally the score
(with its memory write).  The evaluator agent state is its `Memory`. -/
def run_date_exchange (chat : Nat → String) (n : Nat)
    (user_a : UserProfile) (agent_a : Option MatchmakerAgent)
    (user_b : UserProfile) (agent_b : Option MatchmakerAgent)
    (evalMem : Memory) (ts : Int) : DateRun :=
  -- intake summaries (no chat call)
  let _intake_a := extract_intake_summary agent_a
  let _intake_b := extract_intake_summary agent_b
  -- 1) scene
  let scene := pyStrip (chat n)
  -- 2) test moment
  let test_moment := testMomentNormalize (chat (n + 1))
  -- 3) conversation: 6 turns with user prompts `dialogueUserPrompt test_moment`
  let transcript := runTurns chat (n + 2) user_a user_b test_moment
  let ttext := transcriptText transcript
  -- 4) evaluator notes
  let evaluator_notes := parseNotes (chat (n + 8))
  -- improvement 1: delta insight (chat call; written when non-empty)
  let delta_insight := pyStrip (chat (n + 9))
  let evalMem :=
    if delta_insight ≠ "" then
      evalMem.write
        ("Delta insight: " ++ user_a.display_name ++ " × " ++ user_b.display_name ++
          "\n" ++ delta_insight)
        (some [("type", MVal.str ("date_delta_insight")),
               ("user_a_id", MVal.str user_a.user_id),
               ("user_b_id", MVal.str user_b.user_id),
               ("timestamp", MVal.num ts)])
    else evalMem
  -- store the date exchange in each matchmaker memory
  let agent_a := match agent_a with
    | some a => some { a with memory := (a.memory.write
        ("Date exchange with " ++ user_b.display_name ++ ":\n" ++ scene ++ "\n\n" ++ ttext)
        (some [("type", MVal.str ("date_exchange")),
               ("partner_user_id", MVal.str user_b.user_id),
               ("timestamp", MVal.num ts)])) }
    | none => none
  let agent_b := match agent_b with
    | some b => some { b with memory := (b.memory.write
        ("Date exchange with " ++ user_a.display_name ++ ":\n" ++ scene ++ "\n\n" ++ ttext)
        (some [("type", MVal.str ("date_exchange")),
               ("partner_user_id", MVal.str user_a.user_id),
               ("timestamp", MVal.num ts)])) }
    | none => none
  let evalMem := evalMem.write
    ("Date exchange: " ++ user_a.display_name ++ " × " ++ user_b.display_name ++
      "\nScene: " ++ scene ++ "\nTranscript:\n" ++ ttext ++
      "\nNotes: " ++ String.intercalate ("; ") evaluator_notes)
    (some [("type", MVal.str ("date_exchange_eval")),
           ("user_a_id", MVal.str user_a.user_id),
           ("user_b_id", MVal.str user_b.user_id),
           ("timestamp", MVal.num ts)])
  -- improvement 2: matchmaker reflections
  let ra := write_matchmaker_reflection chat (n + 10) agent_a user_b ts
  let rb := write_matchmaker_reflection chat ra.nextCall agent_b user_a ts
  let reflections :=
    strDictInsert (strDictInsert [] user_a.user_id ra.reflection) user_b.user_id rb.reflection
  -- 5) score
  let sc := score_date_exchange chat rb.nextCall
  let evalMem := evalMem.write
    ("Date score: " ++ user_a.display_name ++ " × " ++ user_b.display_name ++
      "\n" ++ dumpsIndent 0 (JVal.obj sc.score))
    (some [("type", MVal.str ("date_score")),
           ("user_a_id", MVal.str user_a.user_id),
           ("user_b_id", MVal.str user_b.user_id),
           ("timestamp", MVal.num ts)])
  { result :=
      { scene := scene, transcript := transcript, evaluator_notes := evaluator_notes,
        delta_insight := delta_insight, reflections := reflections, score := sc.score },
    evalMem := evalMem, agent_a := ra.agent, agent_b := rb.agent,
    nextCall := sc.nextCall,
    trace := [CallTag.scene, CallTag.testMoment] ++
      (List.range 6).map CallTag.dialogue ++
      [CallTag.evaluatorNotes, CallTag.deltaInsight] ++
      ra.trace ++ rb.trace ++ sc.trace }

/-- Result of `generate_pipeline_report`. -/
structure ReportOut where
  report : String
  evalMem : Memory
  nextCall : Nat
  trace : List CallTag

/-- `NeutralEvaluatorAgent.generate_pipeline_report` (evaluator.py lines
444-526): one chat call, one evaluator-memory write, returns the stripped
report. -/
def generate_pipeline_report (chat : Nat → String) (n : Nat) (evalMem : Memory)
    (ua ub : UserProfile) (ts : Int) : ReportOut :=
  let report := chat n
  let mem := evalMem.write
    ("Pipeline report: " ++ ua.display_name ++ " × " ++ ub.display_name ++ "\n" ++ pyStrip report)
    (some [("type", MVal.str ("pipeline_report")),
           ("user_a_id", MVal.str ua.user_id),
           ("user_b_id", MVal.str ub.user_id),
           ("timestamp", MVal.num ts)])
  { report := pyStrip report, evalMem := mem, nextCall := n + 1,
    trace := [CallTag.pipelineReport] }

/-! ### Pipeline orchestration (app/main.py) -/

/-- `_agent_has_intake_summary` (main.py lines 42-63). -/
def agent_has_intake_summary (agent : Option MatchmakerAgent) : Bool :=
  match agent with
  | none => false
  | some a =>
    if a.memory.entries.reverse.any
        (fun e => (e.metadata.find? (fun p => p.1 == "type")).map (fun p => p.2)
          == some (MVal.str ("intake_summary"))) then
      true
    else !((a.memory.search ("Intake summary") 1).1.isEmpty)

/-- The response of `run_pipeline`, together with the final agent states, call
index, and the ordered call trace. -/
structure PipelineRun where
  user_a_id : String
  user_b_id : String
  dates : List DateOut
  final_report : String
  evalMem : Memory
  agent_a : MatchmakerAgent
  agent_b : MatchmakerAgent
  nextCall : Nat
  trace : List CallTag

/-- `run_pipeline` (main.py lines 197-251): intake summaries when missing,
three `run_date_exchange` runs, then the final pipeline report. -/
def run_pipeline (chat : Nat → String) (n : Nat)
    (ua : UserProfile) (A : MatchmakerAgent)
    (ub : UserProfile) (B : MatchmakerAgent)
    (evalMem : Memory) (ts : Int) : PipelineRun :=
  let stepA :=
    if agent_has_intake_summary (some A) then (A, n, ([] : List CallTag))
    else
      let r := run_intake_summary chat n A none ts
      (r.agent, r.nextCall, r.trace)
  let stepB :=
    if agent_has_intake_summary (some B) then (B, stepA.2.1, ([] : List CallTag))
    else
      let r := run_intake_summary chat stepA.2.1 B none ts
      (r.agent, r.nextCall, r.trace)
  let d1 := run_date_exchange chat stepB.2.1 ua (some stepA.1) ub (some stepB.1) evalMem ts
  let d2 := run_date_exchange chat d1.nextCall ua d1.agent_a ub d1.agent_b d1.evalMem ts
  let d3 := run_date_exchange chat d2.nextCall ua d2.agent_a ub d2.agent_b d2.evalMem ts
  let rep := generate_pipeline_report chat d3.nextCall d3.evalMem ua ub ts
  { user_a_id := ua.user_id, user_b_id := ub.user_id,
    dates := [d1.result, d2.result, d3.result],
    final_report := rep.report,
    evalMem := rep.evalMem,
    agent_a := (d3.agent_a.getD stepA.1), agent_b := (d3.agent_b.getD stepB.1),
    nextCall := rep.nextCall,
    trace := stepA.2.2 ++ stepB.2.2 ++ d1.trace ++ d2.trace ++ d3.trace ++ rep.trace }

/-! ### Live intake sessions (app/intake_live.py) -/

/-- The deterministic fallback questions. -/
def fallbackQuestions : List String :=
  ["How do you like to handle conflict or tension when it comes up with a partner?",
   "What are your biggest dealbreakers or red flags in dating?",
   "What does a great week in a relationship look like for you (time together vs. alone, routines, etc.)?",
   "What kind of emotional support do you like to give and receive?"]

/-- The fixed first question of `start_session`. -/
def firstQuestion : String :=
  "What matters most to you in a romantic relationship, and how would you describe your ideal relationship dynamic?"

/-- A live-intake session record. -/
structure LiveSession where
  session_id : String
  user_id : String
  step_index : Nat
  questions : List String
  answers : List String
  created_at : Int
  is_complete : Bool
deriving Repr, DecidableEq

/-- `start_session` (intake_live.py lines 24-46); the uuid and clock are
parameters. -/
def start_session (session_id user_id : String) (ts : Int) : LiveSession :=
  { session_id := session_id, user_id := user_id, step_index := 0,
    questions := [firstQuestion], answers := [], created_at := ts,
    is_complete := false }

/-- `_generate_next_question` (intake_live.py lines 127-172): one chat call,
use the stripped reply when non-empty, otherwise the fallback question
`max(0, min(step_index - 1, 3))`.  The previous question/answer feed only the
prompt.  Returns the question and the next call index. -/
def generate_next_question (chat : Nat → String) (n : Nat)
    (questions answers : List String) (step_index : Nat) : String × Nat :=
  let _prev_question := questions.getLast?
  let _prev_answer := answers.getLast?
  let q := pyStrip (chat n)
  if q ≠ "" then (q, n + 1)
  else (fallbackQuestions.getD (min (step_index - 1) (fallbackQuestions.length - 1)) "", n + 1)

/-- The `extra_context` block built from the Q/A pairs on completion. -/
def build_extra_context (qs answers : List String) : String :=
  String.intercalate "\n\n"
    ((qs.zip answers).enum.map (fun p =>
      "Q" ++ toString (p.1 + 1) ++ ": " ++ p.2.1 ++
      "\nA" ++ toString (p.1 + 1) ++ ": " ++ p.2.2))

/-- The response of a successful `submit_answer`, with the updated session,
agent and call index. -/
structure SubmitOut where
  question : Option String
  step_index : Nat
  is_complete : Bool
  final_summary : Option (List (String × JVal))
  session : LiveSession
  agent : Option MatchmakerAgent
  nextCall : Nat

/-- `submit_answer` (intake_live.py lines 49-124): `ValueError` (modelled by
`Except.error`) for an unknown or completed session; otherwise store the
answer, write the Q/A into the matchmaker memory, advance the counter, and
either finalise (5th answer: intake summary, no next question) or generate the
next question. -/
def submit_answer (chat : Nat → String) (n : Nat) (sess : Option LiveSession)
    (agent : Option MatchmakerAgent) (answer_text : String) (ts : Int) :
    Except String SubmitOut :=
  match sess with
  | none => Except.error ("Session not found")
  | some s0 =>
    if s0.is_complete then Except.error ("Session is already complete")
    else
      let s1 : LiveSession := { s0 with answers := s0.answers ++ [answer_text] }
      let current_question := s1.questions.getD s1.step_index ""
      let agent1 := match agent with
        | some a => some { a with memory := (a.memory.write
            ("Q: " ++ current_question ++ "\nA: " ++ answer_text)
            (some [("type", MVal.str ("intake_live")),
                   ("session_id", MVal.str s1.session_id),
                   ("step_index", MVal.num (Int.ofNat s1.step_index)),
                   ("timestamp", MVal.num ts)])) }
        | none => none
      let s2 : LiveSession := { s1 with step_index := s1.step_index + 1 }
      if 5 ≤ s2.step_index then
        let s3 : LiveSession := { s2 with is_complete := true }
        let extra := build_extra_context s3.questions s3.answers
        match agent1 with
        | none =>
          Except.ok
            { question := none, step_index := s3.step_index, is_complete := true,
              final_summary := some
                [("preferences", JVal.arr []), ("dealbreakers", JVal.arr []),
                 ("dating_thesis", JVal.str ("No agent available for this user."))],
              session := s3, agent := none, nextCall := n }
        | some a =>
          let r := run_intake_summary chat n a (some extra) ts
          Except.ok
            { question := none, step_index := s3.step_index, is_complete := true,
              final_summary := some r.summary, session := s3, agent := some r.agent,
              nextCall := r.nextCall }
      else
        let nq := generate_next_question chat n s2.questions s2.answers s2.step_index
        let s3 : LiveSession := { s2 with questions := s2.questions ++ [nq.1] }
        Except.ok
          { question := some nq.1, step_index := s3.step_index, is_complete := false,
            final_summary := none, session := s3, agent := agent1, nextCall := nq.2 }

/-- Session states reachable from `start_session` by successful
`submit_answer` calls. -/
inductive LiveReachable : LiveSession → Prop where
  | start (sid uid : String) (ts : Int) : LiveReachable (start_session sid uid ts)
  | step (chat : Nat → String) (n : Nat) (s : LiveSession)
      (agent : Option MatchmakerAgent) (ans : String) (ts : Int) (out : SubmitOut) :
      LiveReachable s →
      submit_answer chat n (some s) agent ans ts = Except.ok out →
      LiveReachable out.session

/-! ### Spec-side definitions used by individual claims -/

/-- Claim C7, as stated: the deterministic slice of the input whose
`json.loads` the claim says `extract_json` returns.  Verbatim reading: "when
the last line starts with three backticks" (without stripping it first). -/
def specSliceC7 (text : String) : String :=
  let t := pyStrip text
  let t :=
    if pyStartsWith t ("```") then
      let lines := pySplitlines t
      let lines := if lines.isEmpty then lines else lines.tail
      let lines :=
        match lines.getLast? with
        | some last => if pyStartsWith last ("```") then lines.dropLast else lines
        | none => lines
      pyStrip (String.intercalate "\n" lines)
    else t
  match braceSlice t with
  | some s => s
  | none => t

/-- Claim C7 amended: the same slice, but the last line is stripped of
whitespace before the closing-fence check (as the code does). -/
def specSliceC7Amended (text : String) : String :=
  let t := pyStrip text
  let t :=
    if pyStartsWith t ("```") then
      let lines := pySplitlines t
      let lines := if lines.isEmpty then lines else lines.tail
      let lines :=
        match lines.getLast? with
        | some last => if pyStartsWith (pyStrip last) ("```") then lines.dropLast else lines
        | none => lines
      pyStrip (String.intercalate "\n" lines)
    else t
  match braceSlice t with
  | some s => s
  | none => t

/-- Claim C1, as stated, on call order: every scoring call precedes every
matchmaker-reflection call. -/
def c1ClaimedOrder (tr : List CallTag) : Prop :=
  ∀ (i j : Nat) (u : String),
    tr[i]? = some CallTag.score → tr[j]? = some (CallTag.reflection u) → i < j

/-- The chat-call tags of one `run_date_exchange` over two present agents with
ids `aid` and `bid`, in the order the code issues them. -/
def dateTraceTags (aid bid : String) : List CallTag :=
  [CallTag.scene, CallTag.testMoment,
   CallTag.dialogue 0, CallTag.dialogue 1, CallTag.dialogue 2,
   CallTag.dialogue 3, CallTag.dialogue 4, CallTag.dialogue 5,
   CallTag.evaluatorNotes, CallTag.deltaInsight,
   CallTag.reflection aid, CallTag.reflection bid, CallTag.score]

/-! ### Concrete fixtures used by witnesses and counterexamples -/

/-- A concrete demo user. -/
def wUserA : UserProfile :=
  { user_id := "user_001", display_name := "Jordan", bio := "b",
    traits := [], boundaries := [] }

/-- A second concrete demo user. -/
def wUserB : UserProfile :=
  { user_id := "user_002", display_name := "Alex", bio := "b",
    traits := [], boundaries := [] }

/-- The matchmaker agent of the first demo user. -/
def wAgentA : MatchmakerAgent := mkMatchmakerAgent ("user_001") wUserA

/-- The matchmaker agent of the second demo user. -/
def wAgentB : MatchmakerAgent := mkMatchmakerAgent ("user_002") wUserB

/-- A concrete oracle whose every reply is `reply`. -/
def wChat : Nat → String := fun _ => "reply"

/-- A memory entry holding an intake summary with an embedded JSON object. -/
def wIntakeEntry : MemEntry :=
  { text := "Intake summary for Jordan: \x7b\"a\": 1\x7d", metadata := [] }

/-- An agent whose single memory entry is `wIntakeEntry`. -/
def wIntakeAgent : MatchmakerAgent :=
  { name := "Matchmaker_u", role := "r",
    memory := { entries := [wIntakeEntry], mdata := [] },
    user_id := "u",
    user_profile :=
      { user_id := "u", display_name := "Jordan", bio := "b", traits := [],
        boundaries := [] } }

/-- A live session with four answered questions, one answer short of
completion. -/
def wSession4 : LiveSession :=
  { session_id := "s", user_id := "u", step_index := 4,
    questions := [firstQuestion, "q2", "q3", "q4", "q5"],
    answers := ["a1", "a2", "a3", "a4"], created_at := 0, is_complete := false }

/-! ### Helper lemmas on the dict model -/

theorem dictGet?_append_single (f : List (String × JVal)) (k : String) (v : JVal) :
    dictGet? (f ++ [(k, v)]) k = some ((dictGet? f k).getD v) := by
  unfold dictGet?
  rw [List.find?_append]
  have h1 : ([(k, v)].find? (fun p => p.1 == k)) = some (k, v) := by
    simp [List.find?]
  rw [h1]
  cases h : f.find? (fun p => p.1 == k) <;> simp [Option.or]

theorem dictGet?_setdefault_same (f : List (String × JVal)) (k : String) (v : JVal) :
    dictGet? (setdefault f k v) k = some ((dictGet? f k).getD v) := by
  unfold setdefault
  split
  case isTrue h =>
    rw [List.any_eq_true] at h
    obtain ⟨p, hp, hpk⟩ := h
    have hsome : (f.find? (fun p => p.1 == k)).isSome :=
      List.find?_isSome.mpr ⟨p, hp, hpk⟩
    obtain ⟨q, hq⟩ := Option.isSome_iff_exists.mp hsome
    simp [dictGet?, hq]
  case isFalse h =>
    exact dictGet?_append_single f k v

theorem dictGet?_setdefault_ne (f : List (String × JVal)) (k k' : String) (v : JVal)
    (h : k' ≠ k) : dictGet? (setdefault f k' v) k = dictGet? f k := by
  unfold setdefault
  split
  case isTrue _ => rfl
  case isFalse _ =>
    unfold dictGet?
    rw [List.find?_append]
    have hbe : (k' == k) = false := beq_eq_false_iff_ne.mpr h
    have h1 : ([(k', v)].find? (fun p => p.1 == k)) = none := by
      simp [List.find?, hbe]
    rw [h1]
    cases f.find? (fun p => p.1 == k) <;> simp [Option.or]

theorem dictHasKey_setdefault_self (f : List (String × JVal)) (k : String) (v : JVal) :
    dictHasKey (setdefault f k v) k = true := by
  unfold setdefault dictHasKey
  split
  case isTrue h => exact h
  case isFalse h => simp

theorem dictHasKey_setdefault_mono (f : List (String × JVal)) (k k' : String) (v : JVal)
    (h : dictHasKey f k = true) : dictHasKey (setdefault f k' v) k = true := by
  unfold setdefault dictHasKey at *
  split
  case isTrue _ => exact h
  case isFalse _ => simp [h]

end RelCoach

namespace RelCoach

/-! ### Claim C8 -/

/-- C8: for every memory state, query `q` and bound `k`, `Memory.search`
returns exactly the first `min k m` entries, in insertion order, among the `m`
entries whose lowercased text contains `q.lower().strip()` as a substring, and
leaves the memory unchanged. -/
theorem C8_memory_search (m : Memory) (q : String) (k : Nat) :
    (Memory.search m q k).1
      = (m.entries.filter (fun e => strContains (pyLower e.text) (pyStrip (pyLower q)))).take k
    ∧ (Memory.search m q k).1.length
      = min k (m.entries.filter
          (fun e => strContains (pyLower e.text) (pyStrip (pyLower q)))).length
    ∧ (Memory.search m q k).2 = m := by
  refine ⟨rfl, ?_, rfl⟩
  simp [Memory.search]

/-! ### Claim C9 -/

/-- C9: the memory store is append-only: `write` appends exactly one entry
`{text, metadata or {}}` at the end, and every other operation besides `clear`
(`search`, `search_metadata`, `latest_by_type`, `all`, `set_metadata`,
`get_metadata`) preserves all existing entries and their order. -/
theorem C9_memory_append_only (m : Memory) (t : String)
    (md : Option (List (String × MVal))) (q : String) (k : Nat)
    (key : String) (v : MVal) (ty : String) (d : MVal) :
    (Memory.write m t md).entries = m.entries ++ [{ text := t, metadata := md.getD [] }]
    ∧ (Memory.search m q k).2.entries = m.entries
    ∧ (Memory.search_metadata m key v k).2.entries = m.entries
    ∧ (Memory.latest_by_type m ty).2.entries = m.entries
    ∧ (Memory.all m).2.entries = m.entries
    ∧ (Memory.set_metadata m key v).entries = m.entries
    ∧ (Memory.get_metadata m key d).2.entries = m.entries :=
  ⟨rfl, rfl, rfl, rfl, rfl, rfl, rfl⟩

/-! ### Claim C3 -/

/-- C3: `score_date_exchange` always returns a dict with the keys `score_a`,
`score_b`, `compatibility`, `reasons`, `quote`; when the oracle response parses
to a JSON object, missing keys are filled with the defaults `5`, `5`, `50`,
`["Unable to parse reasons"]`, `""` (present keys keep their parsed values);
when it does not parse to a JSON object, the fixed failure dict `failScore` is
returned (no exception escapes: the function is total). -/
theorem C3_score_date_exchange (chat : Nat → String) (n : Nat) :
    (dictHasKey (score_date_exchange chat n).score ("score_a") = true
      ∧ dictHasKey (score_date_exchange chat n).score ("score_b") = true
      ∧ dictHasKey (score_date_exchange chat n).score ("compatibility") = true
      ∧ dictHasKey (score_date_exchange chat n).score ("reasons") = true
      ∧ dictHasKey (score_date_exchange chat n).score ("quote") = true)
    ∧ (∀ fields, extract_json (chat n) = some (JVal.obj fields) →
        dictGet? (score_date_exchange chat n).score ("score_a")
          = some ((dictGet? fields ("score_a")).getD (JVal.int 5))
        ∧ dictGet? (score_date_exchange chat n).score ("score_b")
          = some ((dictGet? fields ("score_b")).getD (JVal.int 5))
        ∧ dictGet? (score_date_exchange chat n).score ("compatibility")
          = some ((dictGet? fields ("compatibility")).getD (JVal.int 50))
        ∧ dictGet? (score_date_exchange chat n).score ("reasons")
          = some ((dictGet? fields ("reasons")).getD (JVal.arr [JVal.str ("Unable to parse reasons")]))
        ∧ dictGet? (score_date_exchange chat n).score ("quote")
          = some ((dictGet? fields ("quote")).getD (JVal.str "")))
    ∧ ((∀ fields, extract_json (chat n) ≠ some (JVal.obj fields)) →
        (score_date_exchange chat n).score = failScore) := by
  refine ⟨?_, ?_, ?_⟩
  · cases h : extract_json (chat n) with
    | none =>
      have hs : (score_date_exchange chat n).score = failScore := by
        simp [score_date_exchange, h]
      rw [hs]
      exact ⟨rfl, rfl, rfl, rfl, rfl⟩
    | some v =>
      cases v with
      | obj fields =>
        have hs : (score_date_exchange chat n).score =
            setdefault (setdefault (setdefault (setdefault (setdefault fields
              ("score_a") (JVal.int 5)) ("score_b") (JVal.int 5))
              ("compatibility") (JVal.int 50))
              ("reasons") (JVal.arr [JVal.str ("Unable to parse reasons")]))
              ("quote") (JVal.str "") := by
          simp [score_date_exchange, h]
        rw [hs]
        refine ⟨?_, ?_, ?_, ?_, ?_⟩
        · exact dictHasKey_setdefault_mono _ _ _ _ (dictHasKey_setdefault_mono _ _ _ _
            (dictHasKey_setdefault_mono _ _ _ _ (dictHasKey_setdefault_mono _ _ _ _
              (dictHasKey_setdefault_self _ _ _))))
        · exact dictHasKey_setdefault_mono _ _ _ _ (dictHasKey_setdefault_mono _ _ _ _
            (dictHasKey_setdefault_mono _ _ _ _ (dictHasKey_setdefault_self _ _ _)))
        · exact dictHasKey_setdefault_mono _ _ _ _ (dictHasKey_setdefault_mono _ _ _ _
            (dictHasKey_setdefault_self _ _ _))
        · exact dictHasKey_setdefault_mono _ _ _ _ (dictHasKey_setdefault_self _ _ _)
        · exact dictHasKey_setdefault_self _ _ _
      | null =>
        have hs : (score_date_exchange chat n).score = failScore := by
          simp [score_date_exchange, h]
        rw [hs]; exact ⟨rfl, rfl, rfl, rfl, rfl⟩
      | bool b =>
        have hs : (score_date_exchange chat n).score = failScore := by
          simp [score_date_exchange, h]
        rw [hs]; exact ⟨rfl, rfl, rfl, rfl, rfl⟩
      | int i =>
        have hs : (score_date_exchange chat n).score = failScore := by
          simp [score_date_exchange, h]
        rw [hs]; exact ⟨rfl, rfl, rfl, rfl, rfl⟩
      | str s =>
        have hs : (score_date_exchange chat n).score = failScore := by
          simp [score_date_exchange, h]
        rw [hs]; exact ⟨rfl, rfl, rfl, rfl, rfl⟩
      | arr xs =>
        have hs : (score_date_exchange chat n).score = failScore := by
          simp [score_date_exchange, h]
        rw [hs]; exact ⟨rfl, rfl, rfl, rfl, rfl⟩
  · intro fields h
    have hs : (score_date_exchange chat n).score =
        setdefault (setdefault (setdefault (setdefault (setdefault fields
          ("score_a") (JVal.int 5)) ("score_b") (JVal.int 5))
          ("compatibility") (JVal.int 50))
          ("reasons") (JVal.arr [JVal.str ("Unable to parse reasons")]))
          ("quote") (JVal.str "") := by
      simp [score_date_exchange, h]
    rw [hs]
    refine ⟨?_, ?_, ?_, ?_, ?_⟩
    · rw [dictGet?_setdefault_ne _ _ _ _ (by decide), dictGet?_setdefault_ne _ _ _ _ (by decide),
        dictGet?_setdefault_ne _ _ _ _ (by decide), dictGet?_setdefault_ne _ _ _ _ (by decide),
        dictGet?_setdefault_same]
    · rw [dictGet?_setdefault_ne _ _ _ _ (by decide), dictGet?_setdefault_ne _ _ _ _ (by decide),
        dictGet?_setdefault_ne _ _ _ _ (by decide), dictGet?_setdefault_same,
        dictGet?_setdefault_ne _ _ _ _ (by decide)]
    · rw [dictGet?_setdefault_ne _ _ _ _ (by decide), dictGet?_setdefault_ne _ _ _ _ (by decide),
        dictGet?_setdefault_same, dictGet?_setdefault_ne _ _ _ _ (by decide),
        dictGet?_setdefault_ne _ _ _ _ (by decide)]
    · rw [dictGet?_setdefault_ne _ _ _ _ (by decide), dictGet?_setdefault_same,
        dictGet?_setdefault_ne _ _ _ _ (by decide), dictGet?_setdefault_ne _ _ _ _ (by decide),
        dictGet?_setdefault_ne _ _ _ _ (by decide)]
    · rw [dictGet?_setdefault_same, dictGet?_setdefault_ne _ _ _ _ (by decide),
        dictGet?_setdefault_ne _ _ _ _ (by decide), dictGet?_setdefault_ne _ _ _ _ (by decide),
        dictGet?_setdefault_ne _ _ _ _ (by decide)]
  · intro hno
    cases h : extract_json (chat n) with
    | none => simp [score_date_exchange, h]
    | some v =>
      cases v with
      | obj fields => exact absurd h (hno fields)
      | null => simp [score_date_exchange, h]
      | bool b => simp [score_date_exchange, h]
      | int i => simp [score_date_exchange, h]
      | str s => simp [score_date_exchange, h]
      | arr xs => simp [score_date_exchange, h]

/-- C3 witness: on an oracle answering `not json`, all hypotheses are
dischargeable and the failure dict is returned. -/
theorem C3_witness :
    (score_date_exchange (fun _ => "not json") 0).score = failScore := by
  refine (C3_score_date_exchange (fun _ => "not json") 0).2.2 ?_
  intro fields hf
  rw [show extract_json ("not json") = none from rfl] at hf
  exact Option.noConfusion hf

/-! ### Claim C4 -/

/-- C4: `run_intake_summary` returns a dict with keys `preferences`,
`dealbreakers`, `dating_thesis`; when the response parses to a JSON object,
missing keys default to `[]`, `[]`, `""`; when it does not, the fallback dict
with `dating_thesis` equal to the stripped response truncated to 240
characters is returned; in both cases exactly one entry with metadata type
`intake_summary` containing the JSON-serialised summary is appended to the
agent memory. -/
theorem C4_run_intake_summary (chat : Nat → String) (n : Nat) (a : MatchmakerAgent)
    (extra : Option String) (ts : Int) :
    (dictHasKey (run_intake_summary chat n a extra ts).summary ("preferences") = true
      ∧ dictHasKey (run_intake_summary chat n a extra ts).summary ("dealbreakers") = true
      ∧ dictHasKey (run_intake_summary chat n a extra ts).summary ("dating_thesis") = true)
    ∧ (∀ fields, extract_json (chat n) = some (JVal.obj fields) →
        dictGet? (run_intake_summary chat n a extra ts).summary ("preferences")
          = some ((dictGet? fields ("preferences")).getD (JVal.arr []))
        ∧ dictGet? (run_intake_summary chat n a extra ts).summary ("dealbreakers")
          = some ((dictGet? fields ("dealbreakers")).getD (JVal.arr []))
        ∧ dictGet? (run_intake_summary chat n a extra ts).summary ("dating_thesis")
          = some ((dictGet? fields ("dating_thesis")).getD (JVal.str "")))
    ∧ ((∀ fields, extract_json (chat n) ≠ some (JVal.obj fields)) →
        (run_intake_summary chat n a extra ts).summary =
          [("preferences", JVal.arr [JVal.str ("Unable to parse preferences")]),
           ("dealbreakers", JVal.arr [JVal.str ("Unable to parse dealbreakers")]),
           ("dating_thesis", JVal.str (pyTake (pyStrip (chat n)) 240))])
    ∧ (run_intake_summary chat n a extra ts).agent.memory.entries
        = a.memory.entries ++
          [{ text := "Intake summary for " ++ a.user_profile.display_name ++ ": "
                ++ dumps (JVal.obj (run_intake_summary chat n a extra ts).summary),
             metadata := [("type", MVal.str ("intake_summary")),
                          ("user_id", MVal.str a.user_id),
                          ("timestamp", MVal.num ts)] }]
    ∧ (run_intake_summary chat n a extra ts).agent.memory.mdata = a.memory.mdata := by
  refine ⟨?_, ?_, ?_, rfl, rfl⟩
  · cases h : extract_json (chat n) with
    | none =>
      have hs : (run_intake_summary chat n a extra ts).summary =
          [("preferences", JVal.arr [JVal.str ("Unable to parse preferences")]),
           ("dealbreakers", JVal.arr [JVal.str ("Unable to parse dealbreakers")]),
           ("dating_thesis", JVal.str (pyTake (pyStrip (chat n)) 240))] := by
        simp [run_intake_summary, h]
      rw [hs]
      exact ⟨rfl, rfl, rfl⟩
    | some v =>
      cases v with
      | obj fields =>
        have hs : (run_intake_summary chat n a extra ts).summary =
            setdefault (setdefault (setdefault fields ("preferences") (JVal.arr []))
              ("dealbreakers") (JVal.arr [])) ("dating_thesis") (JVal.str "") := by
          simp [run_intake_summary, h]
        rw [hs]
        refine ⟨?_, ?_, ?_⟩
        · exact dictHasKey_setdefault_mono _ _ _ _ (dictHasKey_setdefault_mono _ _ _ _
            (dictHasKey_setdefault_self _ _ _))
        · exact dictHasKey_setdefault_mono _ _ _ _ (dictHasKey_setdefault_self _ _ _)
        · exact dictHasKey_setdefault_self _ _ _
      | null =>
        have hs : (run_intake_summary chat n a extra ts).summary =
            [("preferences", JVal.arr [JVal.str ("Unable to parse preferences")]),
             ("dealbreakers", JVal.arr [JVal.str ("Unable to parse dealbreakers")]),
             ("dating_thesis", JVal.str (pyTake (pyStrip (chat n)) 240))] := by
          simp [run_intake_summary, h]
        rw [hs]; exact ⟨rfl, rfl, rfl⟩
      | bool b =>
        have hs : (run_intake_summary chat n a extra ts).summary =
            [("preferences", JVal.arr [JVal.str ("Unable to parse preferences")]),
             ("dealbreakers", JVal.arr [JVal.str ("Unable to parse dealbreakers")]),
             ("dating_thesis", JVal.str (pyTake (pyStrip (chat n)) 240))] := by
          simp [run_intake_summary, h]
        rw [hs]; exact ⟨rfl, rfl, rfl⟩
      | int i =>
        have hs : (run_intake_summary chat n a extra ts).summary =
            [("preferences", JVal.arr [JVal.str ("Unable to parse preferences")]),
             ("dealbreakers", JVal.arr [JVal.str ("Unable to parse dealbreakers")]),
             ("dating_thesis", JVal.str (pyTake (pyStrip (chat n)) 240))] := by
          simp [run_intake_summary, h]
        rw [hs]; exact ⟨rfl, rfl, rfl⟩
      | str s =>
        have hs : (run_intake_summary chat n a extra ts).summary =
            [("preferences", JVal.arr [JVal.str ("Unable to parse preferences")]),
             ("dealbreakers", JVal.arr [JVal.str ("Unable to parse dealbreakers")]),
             ("dating_thesis", JVal.str (pyTake (pyStrip (chat n)) 240))] := by
          simp [run_intake_summary, h]
        rw [hs]; exact ⟨rfl, rfl, rfl⟩
      | arr xs =>
        have hs : (run_intake_summary chat n a extra ts).summary =
            [("preferences", JVal.arr [JVal.str ("Unable to parse preferences")]),
             ("dealbreakers", JVal.arr [JVal.str ("Unable to parse dealbreakers")]),
             ("dating_thesis", JVal.str (pyTake (pyStrip (chat n)) 240))] := by
          simp [run_intake_summary, h]
        rw [hs]; exact ⟨rfl, rfl, rfl⟩
  · intro fields h
    have hs : (run_intake_summary chat n a extra ts).summary =
        setdefault (setdefault (setdefault fields ("preferences") (JVal.arr []))
          ("dealbreakers") (JVal.arr [])) ("dating_thesis") (JVal.str "") := by
      simp [run_intake_summary, h]
    rw [hs]
    refine ⟨?_, ?_, ?_⟩
    · rw [dictGet?_setdefault_ne _ _ _ _ (by decide), dictGet?_setdefault_ne _ _ _ _ (by decide),
        dictGet?_setdefault_same]
    · rw [dictGet?_setdefault_ne _ _ _ _ (by decide), dictGet?_setdefault_same,
        dictGet?_setdefault_ne _ _ _ _ (by decide)]
    · rw [dictGet?_setdefault_same, dictGet?_setdefault_ne _ _ _ _ (by decide),
        dictGet?_setdefault_ne _ _ _ _ (by decide)]
  · intro hno
    cases h : extract_json (chat n) with
    | none => simp [run_intake_summary, h]
    | some v =>
      cases v with
      | obj fields => exact absurd h (hno fields)
      | null => simp [run_intake_summary, h]
      | bool b => simp [run_intake_summary, h]
      | int i => simp [run_intake_summary, h]
      | str s => simp [run_intake_summary, h]
      | arr xs => simp [run_intake_summary, h]

/-! ### Claim C7 -/

/-- C7 counterexample: on `"```\n[1]\n ```"` the code succeeds (the closing
fence line ` ``` ` is stripped before the `startswith` check and removed, so
`json.loads ("[1]")` parses), while the slice described by the claim keeps the
fence line and is not valid JSON.  So `extract_json t` is not
`json.loads (specSliceC7 t)`, and `extract_json` does not raise exactly when
that slice is invalid. -/
theorem C7_counterexample :
    extract_json ("```\n[1]\n ```") = some (JVal.arr [JVal.int 1])
    ∧ json_loads (specSliceC7 ("```\n[1]\n ```")) = none :=
  ⟨rfl, rfl⟩

/-- C7 amended: for every input `t`, `extract_json t` equals `json.loads`
applied to the claimed deterministic slice, provided the closing-fence test
strips the last line before checking that it starts with three backticks (as
the code does); and `extract_json` raises exactly when that slice is not valid
JSON. -/
theorem C7_extract_json (t : String) :
    extract_json t = json_loads (specSliceC7Amended t)
    ∧ (extract_json t = none ↔ json_loads (specSliceC7Amended t) = none) := by
  have key : ∀ (o : Option String) (u : String),
      (match o with
       | some s => json_loads s
       | none => json_loads u)
        = json_loads (match o with
            | some s => s
            | none => u) := by
    intro o u
    cases o <;> rfl
  have h : extract_json t = json_loads (specSliceC7Amended t) := by
    simp only [extract_json, specSliceC7Amended]
    exact key _ _
  exact ⟨h, by rw [h]⟩

/-! ### Claim C10 -/

theorem getLast?_take_eq {α : Type} (l : List α) (k : Nat) (hk : 0 < k) :
    (l.take k).getLast? = l[min l.length k - 1]? := by
  cases l with
  | nil => simp
  | cons x xs =>
    rw [List.getLast?_eq_getElem?, List.length_take]
    have hlt : min k (x :: xs).length - 1 < k := by
      have h1 : 0 < (x :: xs).length := by simp
      omega
    rw [List.getElem?_take_of_lt hlt]
    congr 1
    omega

/-- Unfolding equation for `extract_intake_summary` on a present agent. -/
theorem extract_intake_summary_some (a : MatchmakerAgent) :
    extract_intake_summary (some a) =
      match ((a.memory.search ("Intake summary") 5).1).getLast? with
      | none => noIntakeJ
      | some entry =>
        match braceSlice entry.text with
        | some s => (json_loads s).getD noIntakeJ
        | none => noIntakeJ := rfl

/-- C10: `_extract_intake_summary` selects the `min(n,5)`-th oldest memory
entry whose text case-insensitively contains `intake summary` and parses the
first `{` ... last `}` slice of its text; with no agent, no matching entry, or
no parsable JSON object, the fixed fallback dict is returned. -/
theorem C10_extract_intake_summary (agent : Option MatchmakerAgent) :
    (agent = none → extract_intake_summary agent = noIntakeJ)
    ∧ (∀ a, agent = some a →
        ((a.memory.entries.filter
            (fun e => strContains (pyLower e.text) ("intake summary"))) = [] →
          extract_intake_summary agent = noIntakeJ)
        ∧ (∀ e, (a.memory.entries.filter
              (fun e => strContains (pyLower e.text) ("intake summary")))[
                min (a.memory.entries.filter
                  (fun e => strContains (pyLower e.text) ("intake summary"))).length 5 - 1]?
              = some e →
            extract_intake_summary agent =
              (match braceSlice e.text with
               | some s => (json_loads s).getD noIntakeJ
               | none => noIntakeJ))) := by
  constructor
  · intro h
    rw [h]
    rfl
  · intro a ha
    subst ha
    have hs : (a.memory.search ("Intake summary") 5).1 =
        (a.memory.entries.filter
          (fun e => strContains (pyLower e.text) ("intake summary"))).take 5 := rfl
    constructor
    · intro hF
      rw [extract_intake_summary_some, hs, hF]
      rfl
    · intro e he
      have hk := getLast?_take_eq
        (a.memory.entries.filter
          (fun e => strContains (pyLower e.text) ("intake summary"))) 5 (by decide)
      rw [extract_intake_summary_some, hs, hk, he]

/-- C10 witness: an agent whose single memory entry is an intake summary with
an embedded JSON object; the object is parsed and returned. -/
theorem C10_witness :
    extract_intake_summary (some wIntakeAgent) = JVal.obj [("a", JVal.int 1)] := by
  have h := (C10_extract_intake_summary (some wIntakeAgent)).2 wIntakeAgent rfl
  have h2 := h.2 wIntakeEntry (by rfl)
  exact h2.trans (by rfl)

/-! ### Claim C2 -/

theorem strContainsAux_of_isPrefixOf (q s : List Char) (h : q.isPrefixOf s = true) :
    strContainsAux q s = true := by
  cases s with
  | nil =>
    cases q with
    | nil => rfl
    | cons c cs => simp [List.isPrefixOf] at h
  | cons c cs => simp [strContainsAux, h]

theorem strContains_append_left (s r : String) : strContains (s ++ r) s = true := by
  unfold strContains
  apply strContainsAux_of_isPrefixOf
  have hl : (s ++ r).toList = s.toList ++ r.toList := by
    simp [String.toList]
  rw [hl, List.isPrefixOf_iff_prefix]
  exact List.prefix_append _ _

theorem mem_of_strContainsAux (q l : List Char) (h : strContainsAux q l = true)
    (c : Char) (hc : c ∈ q) : c ∈ l := by
  induction l with
  | nil =>
    cases q with
    | nil => cases hc
    | cons d ds => simp [strContainsAux] at h
  | cons d l ih =>
    unfold strContainsAux at h
    rcases Bool.or_eq_true_iff.mp h with hp | hr
    · have hpre : q <+: d :: l := List.isPrefixOf_iff_prefix.mp hp
      exact hpre.sublist.mem hc
    · exact List.mem_cons_of_mem d (ih hr)

theorem testMomentNormalize_eq (s : String) :
    testMomentNormalize s =
      if pyStartsWith (pyStrip s) ("[") then pyStrip s
      else "[" ++ pyStrip s ++ "]" := rfl

theorem bracket_mem_testMoment (s : String) : '[' ∈ (testMomentNormalize s).toList := by
  rw [testMomentNormalize_eq]
  cases h : pyStartsWith (pyStrip s) ("[") with
  | true =>
    rw [if_pos rfl]
    have hpre : ("[" : String).toList <+: (pyStrip s).toList :=
      List.isPrefixOf_iff_prefix.mp h
    exact hpre.sublist.mem (by decide)
  | false =>
    rw [if_neg (by simp)]
    rw [show ("[" ++ pyStrip s ++ "]").toList
        = ("[" : String).toList ++ (pyStrip s).toList ++ ("]" : String).toList from by
      simp [String.toList]]
    exact List.mem_append_left _ (List.mem_append_left _ (by decide))

theorem testMoment_not_in_continue (s : String) :
    strContains ("Continue the conversation naturally.") (testMomentNormalize s) = false := by
  by_contra hne
  rw [Bool.not_eq_false] at hne
  have hmem := mem_of_strContainsAux _ _ hne '[' (by
    have := bracket_mem_testMoment s
    simpa [strContains] using this)
  revert hmem
  decide

/-- C2: `run_date_exchange` produces a transcript of exactly 6 turns whose
speakers strictly alternate A, B, ... starting with user A; the injected test
moment appears in the user prompt of exactly the third turn (index 2), every
other turn's user prompt being the fixed continuation instruction; and each
turn's text is the stripped oracle response for that turn. -/
theorem C2_run_date_exchange (chat : Nat → String) (n : Nat) (ua ub : UserProfile)
    (A B : Option MatchmakerAgent) (em : Memory) (ts : Int) :
    (run_date_exchange chat n ua A ub B em ts).result.transcript.length = 6
    ∧ (∀ i : Nat, i < 6 →
        (run_date_exchange chat n ua A ub B em ts).result.transcript[i]?
          = some { speaker := if i % 2 == 0 then "A" else "B",
                   name := if i % 2 == 0 then ua.display_name else ub.display_name,
                   text := pyStrip (chat (n + 2 + i)) })
    ∧ strContains (dialogueUserPrompt (testMomentNormalize (chat (n + 1))) 2)
        (testMomentNormalize (chat (n + 1))) = true
    ∧ (∀ i : Nat, i < 6 → i ≠ 2 →
        dialogueUserPrompt (testMomentNormalize (chat (n + 1))) i
            = "Continue the conversation naturally."
        ∧ strContains (dialogueUserPrompt (testMomentNormalize (chat (n + 1))) i)
            (testMomentNormalize (chat (n + 1))) = false) := by
  have ht : (run_date_exchange chat n ua A ub B em ts).result.transcript
      = runTurns chat (n + 2) ua ub (testMomentNormalize (chat (n + 1))) := rfl
  refine ⟨?_, ?_, ?_, ?_⟩
  · rw [ht]
    simp [runTurns]
  · intro i hi
    rw [ht]
    unfold runTurns
    rw [List.getElem?_map, List.getElem?_range hi]
    rfl
  · exact strContains_append_left (testMomentNormalize (chat (n + 1)))
      ("\nRespond naturally to what just happened.")
  · intro i hi hne
    have h2 : (i == 2) = false := by
      exact beq_eq_false_iff_ne.mpr hne
    constructor
    · simp [dialogueUserPrompt, h2]
    · have hp : dialogueUserPrompt (testMomentNormalize (chat (n + 1))) i
          = "Continue the conversation naturally." := by
        simp [dialogueUserPrompt, h2]
      rw [hp]
      exact testMoment_not_in_continue (chat (n + 1))

/-- C2 witness: with a concrete oracle and users, the transcript has 6 turns,
turn 0 is user A with the stripped reply, and turn 0's user prompt is the
continuation instruction that does not contain the test moment. -/
theorem C2_witness :
    (run_date_exchange wChat 0 wUserA none wUserB none Memory.empty 0).result.transcript.length = 6
    ∧ (run_date_exchange wChat 0 wUserA none wUserB none Memory.empty 0).result.transcript[0]?
        = some { speaker := "A", name := "Jordan", text := "reply" }
    ∧ dialogueUserPrompt (testMomentNormalize (wChat 1)) 0
        = "Continue the conversation naturally." := by
  have h := C2_run_date_exchange wChat 0 wUserA wUserB none none Memory.empty 0
  exact ⟨h.1, h.2.1 0 (by decide), (h.2.2.2 0 (by decide) (by decide)).1⟩

/-! ### Claim C1 -/

/-- With both agents present, the chat calls of one date exchange are exactly
`dateTraceTags`, in order. -/
theorem run_date_exchange_trace (chat : Nat → String) (n : Nat) (ua ub : UserProfile)
    (A B : MatchmakerAgent) (em : Memory) (ts : Int) :
    (run_date_exchange chat n ua (some A) ub (some B) em ts).trace
      = dateTraceTags A.user_id B.user_id := rfl

/-- C1 counterexample: on a concrete pipeline date, the scoring call (index 12)
comes after the matchmaker-reflection calls (indices 10 and 11), refuting the
claimed order "scoring, then the matchmaker reflections". -/
theorem C1_counterexample :
    ¬ c1ClaimedOrder
      (run_date_exchange wChat 0 wUserA (some wAgentA) wUserB (some wAgentB)
        Memory.empty 0).trace := by
  intro h
  have h12 : (run_date_exchange wChat 0 wUserA (some wAgentA) wUserB (some wAgentB)
      Memory.empty 0).trace[12]? = some CallTag.score := rfl
  have h10 : (run_date_exchange wChat 0 wUserA (some wAgentA) wUserB (some wAgentB)
      Memory.empty 0).trace[10]? = some (CallTag.reflection ("user_001")) := rfl
  have := h 12 10 ("user_001") h12 h10
  omega

/-- C1 amended: the evaluator sequences its model calls in the order scene,
test moment, turn-taking dialogue, evaluator notes, delta insight, matchmaker
reflections, then scoring (reflections before scoring, not after); the pipeline
issues the optional intakes first and the report last; and the outputs are
aggregated into the returned result: it contains the scene, the transcript, the
score, and the reflections of these calls. -/
theorem C1_sequencing (chat : Nat → String) (n : Nat) (ua ub : UserProfile)
    (A B : MatchmakerAgent) (em : Memory) (ts : Int)
    (hne : ua.user_id ≠ ub.user_id) :
    (run_date_exchange chat n ua (some A) ub (some B) em ts).trace
        = dateTraceTags A.user_id B.user_id
    ∧ (run_date_exchange chat n ua (some A) ub (some B) em ts).result.scene
        = pyStrip (chat n)
    ∧ (run_date_exchange chat n ua (some A) ub (some B) em ts).result.transcript
        = runTurns chat (n + 2) ua ub (testMomentNormalize (chat (n + 1)))
    ∧ (run_date_exchange chat n ua (some A) ub (some B) em ts).result.score
        = (score_date_exchange chat (n + 12)).score
    ∧ (run_date_exchange chat n ua (some A) ub (some B) em ts).result.reflections
        = [(ua.user_id, pyStrip (chat (n + 10))), (ub.user_id, pyStrip (chat (n + 11)))]
    ∧ (run_pipeline chat n ua A ub B em ts).trace
        = (if agent_has_intake_summary (some A) then ([] : List CallTag)
            else [CallTag.intakeSummary])
          ++ (if agent_has_intake_summary (some B) then ([] : List CallTag)
            else [CallTag.intakeSummary])
          ++ dateTraceTags A.user_id B.user_id
          ++ dateTraceTags A.user_id B.user_id
          ++ dateTraceTags A.user_id B.user_id
          ++ [CallTag.pipelineReport] := by
  refine ⟨rfl, rfl, rfl, ?_, ?_, ?_⟩
  · calc (run_date_exchange chat n ua (some A) ub (some B) em ts).result.score
        = (score_date_exchange chat (n + 10 + 1 + 1)).score := rfl
      _ = (score_date_exchange chat (n + 12)).score := by
          rw [show n + 10 + 1 + 1 = n + 12 from by omega]
  · have e1 : (run_date_exchange chat n ua (some A) ub (some B) em ts).result.reflections
        = strDictInsert (strDictInsert [] ua.user_id (pyStrip (chat (n + 10))))
            ub.user_id (pyStrip (chat (n + 10 + 1))) := rfl
    rw [e1, show n + 10 + 1 = n + 11 from by omega]
    have hbe : (ua.user_id == ub.user_id) = false := beq_eq_false_iff_ne.mpr hne
    simp [strDictInsert, hbe]
  · by_cases hA : agent_has_intake_summary (some A) = true
    · by_cases hB : agent_has_intake_summary (some B) = true
      · simp only [run_pipeline, hA, hB, if_pos rfl, if_true]
        rfl
      · simp only [run_pipeline, hA, Bool.not_eq_true] at *
        simp only [run_pipeline, hA, hB, if_true, if_false, Bool.false_eq_true]
        rfl
    · by_cases hB : agent_has_intake_summary (some B) = true
      · simp only [Bool.not_eq_true] at hA
        simp only [run_pipeline, hA, hB, if_true, if_false, Bool.false_eq_true]
        rfl
      · simp only [Bool.not_eq_true] at hA hB
        simp only [run_pipeline, hA, hB, if_false, Bool.false_eq_true]
        rfl

/-- C1 witness: the concrete date-exchange trace and the aggregated
reflections at a concrete input. -/
theorem C1_witness :
    (run_date_exchange wChat 0 wUserA (some wAgentA) wUserB (some wAgentB)
        Memory.empty 0).trace = dateTraceTags ("user_001") ("user_002")
    ∧ (run_date_exchange wChat 0 wUserA (some wAgentA) wUserB (some wAgentB)
        Memory.empty 0).result.reflections
      = [("user_001", "reply"), ("user_002", "reply")] := by
  have h := C1_sequencing wChat 0 wUserA wUserB wAgentA wAgentB Memory.empty 0 (by decide)
  exact ⟨h.1, h.2.2.2.2.1⟩

/-! ### Claim C5 -/

/-- C5 counterexample: `run_intake_summary` issues one chat call but does not
leave the agent state unchanged (it appends a memory entry), and
`run_date_exchange` issues thirteen chat calls, not one. -/
theorem C5_counterexample :
    (run_intake_summary wChat 0 wAgentA none 0).agent.memory.entries
        ≠ wAgentA.memory.entries
    ∧ (run_date_exchange wChat 0 wUserA (some wAgentA) wUserB (some wAgentB)
        Memory.empty 0).trace.length ≠ 1 := by
  refine ⟨?_, ?_⟩
  · decide
  · decide

/-- C5 amended: each chat interaction is a single stateless call to the
provider, but the operations are neither all single-call nor state-free:
`run_intake_summary` issues exactly one chat call and appends exactly one
memory entry; `score_date_exchange` issues exactly one chat call and touches
no agent state; `run_date_exchange` issues exactly thirteen chat calls and
changes agent state only by appending entries (one delta-insight at most plus
two fixed writes to the evaluator memory, two entries to each matchmaker
memory); `generate_pipeline_report` issues one call and appends one entry;
`_metadata` is never modified by these operations. -/
theorem C5_agent_operations (chat : Nat → String) (n : Nat) (a : MatchmakerAgent)
    (extra : Option String) (ua ub : UserProfile) (A B : MatchmakerAgent)
    (em : Memory) (ts : Int) :
    (run_intake_summary chat n a extra ts).trace = [CallTag.intakeSummary]
    ∧ (run_intake_summary chat n a extra ts).nextCall = n + 1
    ∧ (∃ e, (run_intake_summary chat n a extra ts).agent.memory.entries
        = a.memory.entries ++ [e])
    ∧ (run_intake_summary chat n a extra ts).agent.memory.mdata = a.memory.mdata
    ∧ (score_date_exchange chat n).trace = [CallTag.score]
    ∧ (score_date_exchange chat n).nextCall = n + 1
    ∧ (run_date_exchange chat n ua (some A) ub (some B) em ts).trace
        = dateTraceTags A.user_id B.user_id
    ∧ (run_date_exchange chat n ua (some A) ub (some B) em ts).trace.length = 13
    ∧ (run_date_exchange chat n ua (some A) ub (some B) em ts).nextCall = n + 13
    ∧ em.entries <+:
        (run_date_exchange chat n ua (some A) ub (some B) em ts).evalMem.entries
    ∧ (run_date_exchange chat n ua (some A) ub (some B) em ts).evalMem.mdata = em.mdata
    ∧ (∃ A2, (run_date_exchange chat n ua (some A) ub (some B) em ts).agent_a = some A2
        ∧ A.memory.entries <+: A2.memory.entries
        ∧ A2.memory.entries.length = A.memory.entries.length + 2
        ∧ A2.memory.mdata = A.memory.mdata
        ∧ A2.user_id = A.user_id)
    ∧ (∃ B2, (run_date_exchange chat n ua (some A) ub (some B) em ts).agent_b = some B2
        ∧ B.memory.entries <+: B2.memory.entries
        ∧ B2.memory.entries.length = B.memory.entries.length + 2
        ∧ B2.memory.mdata = B.memory.mdata
        ∧ B2.user_id = B.user_id)
    ∧ (generate_pipeline_report chat n em ua ub ts).trace = [CallTag.pipelineReport]
    ∧ (∃ e, (generate_pipeline_report chat n em ua ub ts).evalMem.entries
        = em.entries ++ [e]) := by
  refine ⟨rfl, rfl, ⟨_, rfl⟩, rfl, rfl, rfl, rfl, rfl, ?_, ?_, ?_, ?_, ?_, rfl, ⟨_, rfl⟩⟩
  · show n + 10 + 1 + 1 + 1 = n + 13
    omega
  · by_cases hd : pyStrip (chat (n + 9)) = ""
    · simp only [run_date_exchange, Memory.write, hd, ne_eq, not_true_eq_false,
        if_false, ite_false]
      simp [List.append_assoc]
    · simp only [run_date_exchange, Memory.write, ne_eq, hd, not_false_eq_true,
        if_true, ite_true]
      simp [List.append_assoc]
  · by_cases hd : pyStrip (chat (n + 9)) = ""
    · simp only [run_date_exchange, Memory.write, hd, ne_eq, not_true_eq_false,
        if_false, ite_false]
    · simp only [run_date_exchange, Memory.write, ne_eq, hd, not_false_eq_true,
        if_true, ite_true]
  · refine ⟨_, rfl, ?_, ?_, rfl, rfl⟩
    · show A.memory.entries <+: (A.memory.entries ++ _) ++ _
      rw [List.append_assoc]
      exact List.prefix_append _ _
    · show ((A.memory.entries ++ _) ++ _).length = A.memory.entries.length + 2
      simp
  · refine ⟨_, rfl, ?_, ?_, rfl, rfl⟩
    · show B.memory.entries <+: (B.memory.entries ++ _) ++ _
      rw [List.append_assoc]
      exact List.prefix_append _ _
    · show ((B.memory.entries ++ _) ++ _).length = B.memory.entries.length + 2
      simp

/-! ### Claim C6 -/

/-- C6: the live-intake session is a counter-driven state machine: on every
reachable state, `step_index` counts the stored answers, the stored questions
number `min (step_index + 1) 5`, `step_index ≤ 5`, and `is_complete` holds
exactly at `step_index = 5`; `submit_answer` raises `ValueError` exactly for
an unknown or already-complete session; and the completing (5th) answer
returns `is_complete = true` with a final summary and no next question. -/
theorem C6_live_intake :
    (∀ s, LiveReachable s →
        s.step_index = s.answers.length
        ∧ s.questions.length = min (s.step_index + 1) 5
        ∧ s.step_index ≤ 5
        ∧ (s.is_complete = true ↔ s.step_index = 5))
    ∧ (∀ (chat : Nat → String) (n : Nat) (sess : Option LiveSession)
        (agent : Option MatchmakerAgent) (ans : String) (ts : Int),
        (∃ e, submit_answer chat n sess agent ans ts = Except.error e)
          ↔ (sess = none ∨ ∃ s, sess = some s ∧ s.is_complete = true))
    ∧ (∀ (chat : Nat → String) (n : Nat) (s : LiveSession)
        (agent : Option MatchmakerAgent) (ans : String) (ts : Int),
        s.step_index = 4 → s.is_complete = false →
        ∃ out, submit_answer chat n (some s) agent ans ts = Except.ok out
          ∧ out.is_complete = true ∧ out.final_summary.isSome = true
          ∧ out.question = none) := by
  refine ⟨?_, ?_, ?_⟩
  · intro s hs
    induction hs with
    | start sid uid ts => simp [start_session]
    | step chat n s agent ans ts out hreach hok ih =>
      obtain ⟨ih1, ih2, ih3, ih4⟩ := ih
      simp only [submit_answer] at hok
      by_cases hc : s.is_complete = true
      · rw [if_pos hc] at hok
        exact absurd hok (by simp)
      · rw [if_neg hc] at hok
        have hcf : s.is_complete = false := by
          revert hc
          cases s.is_complete <;> simp
        by_cases h5 : 5 ≤ s.step_index + 1
        · rw [if_pos h5] at hok
          have hs4 : s.step_index = 4 := by
            have hne5 : s.step_index ≠ 5 := fun h => hc (ih4.mpr h)
            omega
          cases agent with
          | none =>
            simp only [Except.ok.injEq] at hok
            subst hok
            refine ⟨by simp [ih1], ?_, by dsimp only; omega, by simp [hs4]⟩
            show s.questions.length = min (s.step_index + 1 + 1) 5
            rw [ih2, hs4]
            decide
          | some ag =>
            simp only [Except.ok.injEq] at hok
            subst hok
            refine ⟨by simp [ih1], ?_, by dsimp only; omega, by simp [hs4]⟩
            show s.questions.length = min (s.step_index + 1 + 1) 5
            rw [ih2, hs4]
            decide
        · rw [if_neg h5] at hok
          cases agent with
          | none =>
            simp only [Except.ok.injEq] at hok
            subst hok
            refine ⟨by simp [ih1], ?_, by dsimp only; omega, ?_⟩
            · dsimp only
              simp only [List.length_append, List.length_singleton]
              omega
            · dsimp only
              simp [hcf]
              omega
          | some ag =>
            simp only [Except.ok.injEq] at hok
            subst hok
            refine ⟨by simp [ih1], ?_, by dsimp only; omega, ?_⟩
            · dsimp only
              simp only [List.length_append, List.length_singleton]
              omega
            · dsimp only
              simp [hcf]
              omega
  · intro chat n sess agent ans ts
    cases sess with
    | none =>
      simp [submit_answer]
    | some s =>
      by_cases hc : s.is_complete = true
      · simp [submit_answer, hc]
      · have hR : ¬(some s = none
            ∨ ∃ s2, some s = some s2 ∧ s2.is_complete = true) := by
          rintro (h | ⟨s2, hs2, hco⟩)
          · exact Option.noConfusion h
          · rw [Option.some_inj] at hs2
            subst hs2
            exact hc hco
        have hL : ¬ ∃ e, submit_answer chat n (some s) agent ans ts
            = Except.error e := by
          rintro ⟨e, he⟩
          simp only [submit_answer] at he
          rw [if_neg hc] at he
          by_cases h5 : 5 ≤ s.step_index + 1
          · rw [if_pos h5] at he
            cases agent with
            | none => simp at he
            | some ag => simp at he
          · rw [if_neg h5] at he
            cases agent with
            | none => simp at he
            | some ag => simp at he
        exact iff_of_false hL hR
  · intro chat n s agent ans ts h4 hnc
    have hc : ¬ s.is_complete = true := by simp [hnc]
    have h5 : 5 ≤ s.step_index + 1 := by omega
    cases agent with
    | none =>
      cases hok : submit_answer chat n (some s) none ans ts with
      | error e =>
        exfalso
        simp only [submit_answer] at hok
        rw [if_neg hc, if_pos h5] at hok
        simp at hok
      | ok out =>
        refine ⟨out, rfl, ?_, ?_, ?_⟩ <;>
        · simp only [submit_answer] at hok
          rw [if_neg hc, if_pos h5] at hok
          simp only [Except.ok.injEq] at hok
          rw [← hok]
          try rfl
    | some ag =>
      cases hok : submit_answer chat n (some s) (some ag) ans ts with
      | error e =>
        exfalso
        simp only [submit_answer] at hok
        rw [if_neg hc, if_pos h5] at hok
        simp at hok
      | ok out =>
        refine ⟨out, rfl, ?_, ?_, ?_⟩ <;>
        · simp only [submit_answer] at hok
          rw [if_neg hc, if_pos h5] at hok
          simp only [Except.ok.injEq] at hok
          rw [← hok]
          try rfl

/-- C6 witness: the start state satisfies the counter invariants, an unknown
session id raises, and the 5th answer on a step-4 session completes with a
final summary and no next question. -/
theorem C6_witness :
    ((start_session ("sid") ("uid") 0).step_index
        = (start_session ("sid") ("uid") 0).answers.length
      ∧ (start_session ("sid") ("uid") 0).questions.length
        = min ((start_session ("sid") ("uid") 0).step_index + 1) 5)
    ∧ (∃ e, submit_answer wChat 0 none none ("a") 0 = Except.error e)
    ∧ (∃ out, submit_answer wChat 0 (some wSession4) none ("a") 0 = Except.ok out
        ∧ out.is_complete = true ∧ out.final_summary.isSome = true
        ∧ out.question = none) := by
  refine ⟨?_, ?_, ?_⟩
  · have h1 := C6_live_intake.1 _ (LiveReachable.start ("sid") ("uid") 0)
    exact ⟨h1.1, h1.2.1⟩
  · exact (C6_live_intake.2.1 wChat 0 none none ("a") 0).mpr (Or.inl rfl)
  · exact C6_live_intake.2.2 wChat 0 wSession4 none ("a") 0 rfl rfl


/-- C4 witness: a concrete agent and an oracle answering a JSON object with
only a `preferences` key; the missing keys are defaulted and one
`intake_summary` entry is appended. -/
theorem C4_witness :
    dictGet? (run_intake_summary (fun _ => "\x7b\"preferences\": [\"p1\"]\x7d") 0
        wAgentA none 3).summary ("dating_thesis")
      = some (JVal.str "")
    ∧ (run_intake_summary (fun _ => "\x7b\"preferences\": [\"p1\"]\x7d") 0
        wAgentA none 3).agent.memory.entries.length = 1 := by
  have h := C4_run_intake_summary (fun _ => "\x7b\"preferences\": [\"p1\"]\x7d") 0
    wAgentA none 3
  refine ⟨?_, ?_⟩
  · have h2 := (h.2.1 [("preferences", JVal.arr [JVal.str ("p1")])] (by rfl)).2.2
    rw [h2]
    rfl
  · rw [h.2.2.2.1]
    rfl

end RelCoach
